import Mathlib

set_option linter.unusedVariables false

/-
  Verification of pgfuse (src/pgfuse.c) against its specification.

  The FUSE handler layer in src/pgfuse.c is embedded shallowly below.  The
  database access layer (pgsql.c) and the connection pool (pool.c) are not part
  of src/, so the `psql_*` operations they provide are modelled from the
  specification (sections 4.1, 4.3 and C5 of spec.md); each such definition
  carries a doc comment starting with "Modelled from the spec:".  Paths are
  embedded as their list of components (an absolute path "/a/b" is ["a", "b"]);
  `dirname` and `basename` below mirror the POSIX functions used by the C code
  on such paths.
-/

namespace PgFuse

/-- POSIX errno values, as used by the negative returns in src/pgfuse.c. -/
def EPERM : Int := 1

/-- errno ENOENT. -/
def ENOENT : Int := 2

/-- errno EIO (name suffixed to keep the identifier distinct). -/
def EIO_c : Int := 5

/-- errno EBADF. -/
def EBADF : Int := 9

/-- errno ENOMEM. -/
def ENOMEM : Int := 12

/-- errno EEXIST. -/
def EEXIST : Int := 17

/-- errno ENOTDIR. -/
def ENOTDIR : Int := 20

/-- errno EISDIR. -/
def EISDIR : Int := 21

/-- errno EINVAL. -/
def EINVAL : Int := 22

/-- errno EROFS. -/
def EROFS : Int := 30

/-- errno ENOTEMPTY. -/
def ENOTEMPTY : Int := 39

/-- File-type mask of `mode_t` (sys/stat.h). -/
def S_IFMT : Nat := 0o170000

/-- Directory file-type bit. -/
def S_IFDIR : Nat := 0o040000

/-- Regular-file file-type bit. -/
def S_IFREG : Nat := 0o100000

/-- Symlink file-type bit. -/
def S_IFLNK : Nat := 0o120000

/-- `S_ISDIR` macro. -/
def S_ISDIR (m : Nat) : Bool := (m &&& S_IFMT) == S_IFDIR

/-- `S_ISREG` macro. -/
def S_ISREG (m : Nat) : Bool := (m &&& S_IFMT) == S_IFREG

/-- `S_ISLNK` macro. -/
def S_ISLNK (m : Nat) : Bool := (m &&& S_IFMT) == S_IFLNK

/-- `struct timespec`: seconds and nanoseconds. -/
structure Timespec where
  tv_sec : Int
  tv_nsec : Int
deriving Repr, DecidableEq

/-- Modelled from the spec: the inode metadata record `PgMeta` of pgsql.h
(not under src/), spec section 3: size, mode, uid, gid, the three timestamps,
and the parent id (used by `pgfuse_rename` via `from_meta.parent_id`). -/
structure PgMeta where
  size : Nat
  mode : Nat
  uid : Nat
  gid : Nat
  ctime : Timespec
  mtime : Timespec
  atime : Timespec
  parent_id : Nat
deriving Repr, DecidableEq

/-- One inode row: last path component, metadata, and the file content bytes
(spec section 3; missing tail bytes read as zeros, i.e. sparse storage). -/
structure Inode where
  name : String
  meta : PgMeta
  content : List Nat
deriving Repr, DecidableEq

/-- The database state: the root inode id and the inode table. -/
structure Db where
  rootId : Nat
  inodes : List (Nat × Inode)
deriving Repr, DecidableEq

/-- Look up an inode row by id. -/
def Db.find (db : Db) (id : Nat) : Option Inode :=
  (db.inodes.find? (fun p => p.1 == id)).map Prod.snd

/-- Look up a directory entry by `(parent_id, name)`.  The root (the unique
inode with `id = parent_id`, spec section 9) is never a directory entry of
itself, hence the `p.1 != parent` guard. -/
def Db.child (db : Db) (parent : Nat) (c : String) : Option (Nat × Inode) :=
  db.inodes.find? (fun p => p.2.meta.parent_id == parent && p.2.name == c && p.1 != parent)

/-- A fresh inode id: larger than every id in the table (the serial column). -/
def Db.freshId (db : Db) : Nat :=
  (db.inodes.foldr (fun p m => max p.1 m) 0) + 1

/-- Rewrite the inode row with the given id through `f`. -/
def Db.updateInode (db : Db) (id : Nat) (f : Inode → Inode) : Db :=
  { db with inodes := db.inodes.map (fun p => if p.1 == id then (p.1, f p.2) else p) }

/-- Insert a new inode row in front of the table. -/
def Db.consIno (db : Db) (nid : Nat) (nino : Inode) : Db :=
  { db with inodes := (nid, nino) :: db.inodes }

/-- POSIX `dirname` on a component list: drop the last component. -/
def dirname : List String → List String
  | [] => []
  | [_] => []
  | c :: c' :: rest => c :: dirname (c' :: rest)

/-- POSIX `basename` on a component list: the last component ("/" for the root). -/
def basename : List String → String
  | [] => "/"
  | [c] => c
  | _ :: c' :: rest => basename (c' :: rest)

/-- Modelled from the spec: the path-resolution walk of the resolver C5
(pgsql.c, not under src/): starting from an inode, follow one directory entry
per component; an intermediate non-directory yields -ENOTDIR, a missing
component -ENOENT (spec sections 4.1 and 2/C5). -/
def resolve_loop (db : Db) : Nat → Inode → List String → Except Int (Nat × Inode)
  | id, ino, [] => .ok (id, ino)
  | id, ino, c :: rest =>
    if S_ISDIR ino.meta.mode then
      match db.child id c with
      | none => .error (-ENOENT)
      | some (cid, cino) => resolve_loop db cid cino rest
    else .error (-ENOTDIR)

/-- Modelled from the spec: `psql_read_meta_from_path` (pgsql.c, not under
src/), spec section 4.1: resolve an absolute path to `(id, inode)` by walking
components from the root. -/
def psql_read_meta_from_path (db : Db) (p : List String) : Except Int (Nat × Inode) :=
  match db.find db.rootId with
  | none => .error (-EIO_c)
  | some root => resolve_loop db db.rootId root p

/-- Modelled from the spec: `psql_read_meta` (pgsql.c, not under src/), spec
section 4.1 `read_meta_by_id`: the id (file handle) is authoritative. -/
def psql_read_meta (db : Db) (id : Nat) : Except Int Inode :=
  match db.find id with
  | none => .error (-ENOENT)
  | some ino => .ok ino

/-- Modelled from the spec: `psql_write_meta` (pgsql.c, not under src/), spec
section 4.1: overwrites mode, uid, gid, size and the three timestamps of an
existing inode (not its parent link, name or content). -/
def psql_write_meta (db : Db) (id : Nat) (m : PgMeta) : Except Int Db :=
  match db.find id with
  | none => .error (-ENOENT)
  | some _ => .ok (db.updateInode id
      (fun ino => { ino with meta := { m with parent_id := ino.meta.parent_id } }))

/-- The inode row inserted for a new filesystem object. -/
def createdIno (parent_id : Nat) (name : String) (m : PgMeta) : Inode :=
  ⟨name, { m with parent_id := parent_id }, []⟩

/-- The database after inserting a new inode under `(parent_id, name)`: the
parent's child count grows by one and a fresh row is prepended. -/
def createdDb (db : Db) (parent_id : Nat) (name : String) (m : PgMeta) : Db :=
  (db.updateInode parent_id
      (fun ino => { ino with meta := { ino.meta with size := ino.meta.size + 1 } })).consIno
    db.freshId (createdIno parent_id name m)

/-- Modelled from the spec: `psql_create_file` (pgsql.c, not under src/), spec
section 4.1: inserts a new inode under `(parent_id, name)`, failing with
-EEXIST when that pair is taken, and increments the parent's child count. -/
def psql_create_file (db : Db) (parent_id : Nat) (name : String) (m : PgMeta) :
    Except Int Db :=
  if (db.child parent_id name).isSome then .error (-EEXIST)
  else if (db.find parent_id).isNone then .error (-EIO_c)
  else .ok (createdDb db parent_id name m)

/-- Modelled from the spec: `psql_create_dir` (pgsql.c, not under src/); same
insertion behaviour as `psql_create_file` (spec section 4.1). -/
def psql_create_dir (db : Db) (parent_id : Nat) (name : String) (m : PgMeta) :
    Except Int Db :=
  psql_create_file db parent_id name m

/-- Number of directory entries of an inode. -/
def Db.childCount (db : Db) (id : Nat) : Nat :=
  (db.inodes.filter (fun p => p.2.meta.parent_id == id && p.1 != id)).length

/-- Modelled from the spec: `psql_delete_file` (pgsql.c, not under src/), spec
section 4.1: deletes the inode and its blocks and decrements the parent's
child count. -/
def psql_delete_file (db : Db) (id : Nat) : Except Int Db :=
  match db.find id with
  | none => .error (-ENOENT)
  | some ino =>
    let db' := { db with inodes := db.inodes.filter (fun p => p.1 != id) }
    .ok (db'.updateInode ino.meta.parent_id
      (fun pino => { pino with meta := { pino.meta with size := pino.meta.size - 1 } }))

/-- Modelled from the spec: `psql_delete_dir` (pgsql.c, not under src/), spec
section 4.1: verifies the directory has zero children (-ENOTEMPTY otherwise),
then deletes it as `psql_delete_file` does. -/
def psql_delete_dir (db : Db) (id : Nat) : Except Int Db :=
  if db.childCount id ≠ 0 then .error (-ENOTEMPTY)
  else psql_delete_file db id

/-- Overlay `buf` onto `content` starting at byte `offset`, zero-filling any
gap (the read-modify-write of spec section 4.3 at byte granularity). -/
def overlay (content : List Nat) (offset : Nat) (buf : List Nat) : List Nat :=
  (List.range (max content.length (offset + buf.length))).map
    (fun i => if offset ≤ i ∧ i < offset + buf.length then buf.getD (i - offset) 0
              else content.getD i 0)

/-- Modelled from the spec: the block-engine write `psql_write_buf` (pgsql.c,
not under src/), spec section 4.3: stores the bytes of `buf` at `offset` and
returns the number of bytes written (`buf.length`); it does not update the
inode's `size`. -/
def psql_write_buf (db : Db) (id : Nat) (buf : List Nat) (offset : Nat) :
    Except Int (Nat × Db) :=
  match db.find id with
  | none => .error (-ENOENT)
  | some ino =>
    .ok (buf.length, db.updateInode id (fun i => { i with content := overlay ino.content offset buf }))

/-- Modelled from the spec: the block-engine read `psql_read_buf` (pgsql.c,
not under src/), spec section 4.3: produces `min length (size - offset)`
bytes, absent bytes reading as zeros; bytes past `size` are never returned. -/
def psql_read_buf (db : Db) (id : Nat) (offset len : Nat) :
    Except Int (Nat × List Nat) :=
  match db.find id with
  | none => .error (-ENOENT)
  | some ino =>
    let n := min len (ino.meta.size - offset)
    .ok (n, (List.range n).map (fun i => ino.content.getD (offset + i) 0))

/-- Modelled from the spec: the block-engine truncate `psql_truncate` (pgsql.c,
not under src/), spec section 4.3: drops all content bytes at or past
`new_size`; it does not update the inode's `size`. -/
def psql_truncate (db : Db) (id : Nat) (new_size : Nat) : Except Int Db :=
  match db.find id with
  | none => .error (-ENOENT)
  | some ino =>
    .ok (db.updateInode id (fun i => { i with content := ino.content.take new_size }))

/-- Modelled from the spec: `psql_rename` (pgsql.c, not under src/), spec
section 4.1: updates the inode's parent and name atomically; no recursive
path rewrite is needed. -/
def psql_rename (db : Db) (from_id to_parent_id : Nat) (new_name : String) :
    Int × Db :=
  match db.find from_id with
  | none => (-ENOENT, db)
  | some _ =>
    (0, db.updateInode from_id
      (fun ino => { ino with
                      name := new_name,
                      meta := { ino.meta with parent_id := to_parent_id } }))

/-- The process-wide mount configuration (`PgFuseData`) together with the FUSE
calling context (`fuse_get_context()`: uid, gid) and the current time used by
`now()` in pgfuse.c. -/
structure FuseCtx where
  read_only : Bool
  block_size : Nat
  uid : Nat
  gid : Nat
  tnow : Timespec
deriving Repr, DecidableEq

/-- How a handler invocation left its transaction: committed, rolled back, or
neither (the handler returned without terminating the transaction). -/
inductive Txn where
  | committed
  | rolledBack
  | leaked
deriving Repr, DecidableEq

/-- The observable outcome of one handler invocation: the returned value, the
out-parameter `val`, the database state visible after the transaction ended,
whether the transaction was terminated, and whether the pooled connection was
released. -/
structure HRes (α : Type) where
  ret : Int
  val : α
  db : Db
  txn : Txn
  released : Bool
deriving Repr, DecidableEq

/-- `struct stat` as filled by pgfuse (timestamps in whole seconds, as the C
code assigns only `tv_sec`).  `memset(stbuf, 0, ...)` is the all-zero value. -/
structure Stat where
  st_ino : Nat
  st_mode : Nat
  st_size : Nat
  st_blksize : Nat
  st_blocks : Nat
  st_nlink : Nat
  st_uid : Nat
  st_gid : Nat
  st_atime : Int
  st_mtime : Int
  st_ctime : Int
deriving Repr, DecidableEq

/-- The zeroed `struct stat`. -/
def stat0 : Stat := ⟨0, 0, 0, 0, 0, 0, 0, 0, 0, 0, 0⟩

/-- The access mode bits of `fi->flags & O_ACCMODE`. -/
inductive AccMode where
  | rdonly
  | wronly
  | rdwr
deriving Repr, DecidableEq

/-- `pgfuse_fgetattr` (src/pgfuse.c:157): reads metadata by the file handle;
note that it fills no `st_atime`/`st_mtime`/`st_ctime` fields (they stay at
the `memset` zeros). -/
def pgfuse_fgetattr (cfg : FuseCtx) (db : Db) (fh : Nat) : HRes Stat :=
  match psql_read_meta db fh with
  | .error e => ⟨e, stat0, db, .rolledBack, true⟩
  | .ok ino =>
    ⟨0, { stat0 with
            st_ino := fh,
            st_mode := ino.meta.mode,
            st_size := ino.meta.size,
            st_blksize := cfg.block_size,
            st_blocks := (ino.meta.size + cfg.block_size - 1) / cfg.block_size,
            st_nlink := 1,
            st_uid := ino.meta.uid,
            st_gid := ino.meta.gid },
      db, .committed, true⟩

/-- `pgfuse_getattr` (src/pgfuse.c:203): reads metadata by path; additionally
fills the three timestamp fields from the inode (seconds part). -/
def pgfuse_getattr (cfg : FuseCtx) (db : Db) (path : List String) : HRes Stat :=
  match psql_read_meta_from_path db path with
  | .error e => ⟨e, stat0, db, .rolledBack, true⟩
  | .ok (id, ino) =>
    ⟨0, { stat0 with
            st_ino := id,
            st_mode := ino.meta.mode,
            st_size := ino.meta.size,
            st_blksize := cfg.block_size,
            st_blocks := (ino.meta.size + cfg.block_size - 1) / cfg.block_size,
            st_nlink := 1,
            st_uid := ino.meta.uid,
            st_gid := ino.meta.gid,
            st_atime := ino.meta.atime.tv_sec,
            st_mtime := ino.meta.mtime.tv_sec,
            st_ctime := ino.meta.ctime.tv_sec },
      db, .committed, true⟩

/-- `pgfuse_access` (src/pgfuse.c:252): access is always granted; neither the
connection pool nor the database is touched. -/
def pgfuse_access (cfg : FuseCtx) (db : Db) (path : List String) (mode : Nat) :
    Int × Db :=
  (0, db)

/-- `pgfuse_create` (src/pgfuse.c:287). -/
def pgfuse_create (cfg : FuseCtx) (db : Db) (path : List String) (mode : Nat) :
    HRes (Option Nat) :=
  if cfg.read_only then ⟨-EROFS, none, db, .rolledBack, true⟩ else
  match psql_read_meta_from_path db path with
  | .ok (_, ino) =>
    if S_ISDIR ino.meta.mode then ⟨-EISDIR, none, db, .rolledBack, true⟩
    else ⟨-EEXIST, none, db, .rolledBack, true⟩
  | .error e =>
    if e ≠ -ENOENT then ⟨e, none, db, .rolledBack, true⟩ else
    match psql_read_meta_from_path db (dirname path) with
    | .error pe => ⟨pe, none, db, .rolledBack, true⟩
    | .ok (parent_id, pino) =>
      if ¬ S_ISDIR pino.meta.mode then ⟨-ENOENT, none, db, .rolledBack, true⟩ else
      let m : PgMeta :=
        { size := 0, mode := mode, uid := cfg.uid, gid := cfg.gid,
          ctime := cfg.tnow, mtime := cfg.tnow, atime := cfg.tnow, parent_id := 0 }
      match psql_create_file db parent_id (basename path) m with
      | .error ce => ⟨ce, none, db, .rolledBack, true⟩
      | .ok db1 =>
        match psql_read_meta_from_path db1 path with
        | .error _ => ⟨0, none, db, .rolledBack, true⟩
        | .ok (nid, _) => ⟨0, some nid, db1, .committed, true⟩

/-- `pgfuse_open` (src/pgfuse.c:407): resolves the path, refuses directories
(-EISDIR) and any write access mode on a read-only mount (-EROFS), rewrites
the metadata unchanged, and stores the id in the file handle. -/
def pgfuse_open (cfg : FuseCtx) (db : Db) (path : List String) (acc : AccMode) :
    HRes (Option Nat) :=
  match psql_read_meta_from_path db path with
  | .error e => ⟨e, none, db, .rolledBack, true⟩
  | .ok (id, ino) =>
    if S_ISDIR ino.meta.mode then ⟨-EISDIR, none, db, .rolledBack, true⟩ else
    if cfg.read_only ∧ acc ≠ .rdonly then ⟨-EROFS, none, db, .rolledBack, true⟩ else
    match psql_write_meta db id ino.meta with
    | .error e => ⟨e, none, db, .rolledBack, true⟩
    | .ok db1 => ⟨0, some id, db1, .committed, true⟩

/-- `pgfuse_opendir` (src/pgfuse.c:461): nothing to do. -/
def pgfuse_opendir (cfg : FuseCtx) (db : Db) (path : List String) : Int × Db :=
  (0, db)

/-- `pgfuse_releasedir` (src/pgfuse.c:504): nothing to do. -/
def pgfuse_releasedir (cfg : FuseCtx) (db : Db) (path : List String) : Int × Db :=
  (0, db)

/-- `pgfuse_fsyncdir` (src/pgfuse.c:510): nothing to do. -/
def pgfuse_fsyncdir (cfg : FuseCtx) (db : Db) (path : List String) (datasync : Bool) :
    Int × Db :=
  (0, db)

/-- `pgfuse_mkdir` (src/pgfuse.c:516). -/
def pgfuse_mkdir (cfg : FuseCtx) (db : Db) (path : List String) (mode : Nat) :
    HRes Unit :=
  if cfg.read_only then ⟨-EROFS, (), db, .rolledBack, true⟩ else
  match psql_read_meta_from_path db (dirname path) with
  | .error pe => ⟨pe, (), db, .rolledBack, true⟩
  | .ok (parent_id, pino) =>
    if ¬ S_ISDIR pino.meta.mode then ⟨-ENOENT, (), db, .rolledBack, true⟩ else
    let m : PgMeta :=
      { size := 0, mode := mode ||| S_IFDIR, uid := cfg.uid, gid := cfg.gid,
        ctime := cfg.tnow, mtime := cfg.tnow, atime := cfg.tnow, parent_id := 0 }
    match psql_create_dir db parent_id (basename path) m with
    | .error ce => ⟨ce, (), db, .rolledBack, true⟩
    | .ok db1 => ⟨0, (), db1, .committed, true⟩

/-- `pgfuse_rmdir` (src/pgfuse.c:598). -/
def pgfuse_rmdir (cfg : FuseCtx) (db : Db) (path : List String) : HRes Unit :=
  match psql_read_meta_from_path db path with
  | .error e => ⟨e, (), db, .rolledBack, true⟩
  | .ok (id, ino) =>
    if ¬ S_ISDIR ino.meta.mode then ⟨-ENOTDIR, (), db, .rolledBack, true⟩ else
    if cfg.read_only then ⟨-EROFS, (), db, .rolledBack, true⟩ else
    match psql_delete_dir db id with
    | .error e => ⟨e, (), db, .rolledBack, true⟩
    | .ok db1 => ⟨0, (), db1, .committed, true⟩

/-- `pgfuse_unlink` (src/pgfuse.c:645). -/
def pgfuse_unlink (cfg : FuseCtx) (db : Db) (path : List String) : HRes Unit :=
  match psql_read_meta_from_path db path with
  | .error e => ⟨e, (), db, .rolledBack, true⟩
  | .ok (id, ino) =>
    if S_ISDIR ino.meta.mode then ⟨-EPERM, (), db, .rolledBack, true⟩ else
    if cfg.read_only then ⟨-EROFS, (), db, .rolledBack, true⟩ else
    match psql_delete_file db id with
    | .error e => ⟨e, (), db, .rolledBack, true⟩
    | .ok db1 => ⟨0, (), db1, .committed, true⟩

/-- `pgfuse_flush` (src/pgfuse.c:692): nothing to do, data is always
persistent in the database. -/
def pgfuse_flush (cfg : FuseCtx) (db : Db) (fh : Nat) : Int × Db :=
  (0, db)

/-- `pgfuse_fsync` (src/pgfuse.c:699): touches no state, but returns -EROFS on
a read-only mount and -EBADF for a zero file handle. -/
def pgfuse_fsync (cfg : FuseCtx) (db : Db) (fh : Nat) : Int × Db :=
  (if cfg.read_only then -EROFS else if fh == 0 then -EBADF else 0, db)

/-- `pgfuse_release` (src/pgfuse.c:724): nothing to do given the simple
transaction model. -/
def pgfuse_release (cfg : FuseCtx) (db : Db) (fh : Nat) : Int × Db :=
  (0, db)

/-- `pgfuse_write` (src/pgfuse.c:738) with the block-engine write abstracted
as the `engine` argument (instantiated with `psql_write_buf` in
`pgfuse_write`): checks the handle and the read-only flag (returning -EBADF
for both), grows the recorded size to `offset + length` when needed, calls
the engine, escalates a written-byte-count mismatch to -EIO with rollback,
and persists the metadata. -/
def pgfuse_write_gen (engine : Db → Nat → List Nat → Nat → Except Int (Nat × Db))
    (cfg : FuseCtx) (db : Db) (fh : Nat) (buf : List Nat) (offset : Nat) :
    HRes Unit :=
  if fh == 0 then ⟨-EBADF, (), db, .rolledBack, true⟩ else
  if cfg.read_only then ⟨-EBADF, (), db, .rolledBack, true⟩ else
  match psql_read_meta db fh with
  | .error e => ⟨e, (), db, .rolledBack, true⟩
  | .ok ino =>
    let m := if ino.meta.size < offset + buf.length
             then { ino.meta with size := offset + buf.length }
             else ino.meta
    match engine db fh buf offset with
    | .error e => ⟨e, (), db, .rolledBack, true⟩
    | .ok (written, db1) =>
      if written ≠ buf.length then ⟨-EIO_c, (), db, .rolledBack, true⟩ else
      match psql_write_meta db1 fh m with
      | .error e => ⟨e, (), db, .rolledBack, true⟩
      | .ok db2 => ⟨(buf.length : Int), (), db2, .committed, true⟩

/-- `pgfuse_write` (src/pgfuse.c:738), with the spec-modelled block engine. -/
def pgfuse_write (cfg : FuseCtx) (db : Db) (fh : Nat) (buf : List Nat) (offset : Nat) :
    HRes Unit :=
  pgfuse_write_gen psql_write_buf cfg db fh buf offset

/-- `pgfuse_read` (src/pgfuse.c:799): -EBADF on a zero handle, otherwise the
engine read; returns the number of bytes read and the bytes. -/
def pgfuse_read (cfg : FuseCtx) (db : Db) (fh : Nat) (offset len : Nat) :
    HRes (List Nat) :=
  if fh == 0 then ⟨-EBADF, [], db, .rolledBack, true⟩ else
  match psql_read_buf db fh offset len with
  | .error e => ⟨e, [], db, .rolledBack, true⟩
  | .ok (n, bytes) => ⟨(n : Int), bytes, db, .committed, true⟩

/-- `pgfuse_truncate` (src/pgfuse.c:831). -/
def pgfuse_truncate (cfg : FuseCtx) (db : Db) (path : List String) (offset : Nat) :
    HRes Unit :=
  match psql_read_meta_from_path db path with
  | .error e => ⟨e, (), db, .rolledBack, true⟩
  | .ok (id, ino) =>
    if S_ISDIR ino.meta.mode then ⟨-EISDIR, (), db, .rolledBack, true⟩ else
    if cfg.read_only then ⟨-EROFS, (), db, .rolledBack, true⟩ else
    match psql_truncate db id offset with
    | .error e => ⟨e, (), db, .rolledBack, true⟩
    | .ok db1 =>
      match psql_write_meta db1 id { ino.meta with size := offset } with
      | .error e => ⟨e, (), db, .rolledBack, true⟩
      | .ok db2 => ⟨0, (), db2, .committed, true⟩

/-- `pgfuse_ftruncate` (src/pgfuse.c:886). -/
def pgfuse_ftruncate (cfg : FuseCtx) (db : Db) (fh : Nat) (offset : Nat) :
    HRes Unit :=
  if fh == 0 then ⟨-EBADF, (), db, .rolledBack, true⟩ else
  match psql_read_meta db fh with
  | .error e => ⟨e, (), db, .rolledBack, true⟩
  | .ok ino =>
    if cfg.read_only then ⟨-EROFS, (), db, .rolledBack, true⟩ else
    match psql_truncate db fh offset with
    | .error e => ⟨e, (), db, .rolledBack, true⟩
    | .ok db1 =>
      match psql_write_meta db1 fh { ino.meta with size := offset } with
      | .error e => ⟨e, (), db, .rolledBack, true⟩
      | .ok db2 => ⟨0, (), db2, .committed, true⟩

/-- `pgfuse_chmod` (src/pgfuse.c:1099). -/
def pgfuse_chmod (cfg : FuseCtx) (db : Db) (path : List String) (mode : Nat) :
    HRes Unit :=
  match psql_read_meta_from_path db path with
  | .error e => ⟨e, (), db, .rolledBack, true⟩
  | .ok (id, ino) =>
    if cfg.read_only then ⟨-EROFS, (), db, .rolledBack, true⟩ else
    match psql_write_meta db id { ino.meta with mode := mode } with
    | .error e => ⟨e, (), db, .rolledBack, true⟩
    | .ok db1 => ⟨0, (), db1, .committed, true⟩

/-- `pgfuse_chown` (src/pgfuse.c:1140). -/
def pgfuse_chown (cfg : FuseCtx) (db : Db) (path : List String) (uid gid : Nat) :
    HRes Unit :=
  match psql_read_meta_from_path db path with
  | .error e => ⟨e, (), db, .rolledBack, true⟩
  | .ok (id, ino) =>
    if cfg.read_only then ⟨-EROFS, (), db, .rolledBack, true⟩ else
    match psql_write_meta db id { ino.meta with uid := uid, gid := gid } with
    | .error e => ⟨e, (), db, .rolledBack, true⟩
    | .ok db1 => ⟨0, (), db1, .committed, true⟩

/-- `pgfuse_symlink` (src/pgfuse.c:1182): `from` is the target byte string,
`to` the link path.  Creates a symlink inode (mode `0777 | S_IFLNK`, size
`strlen(from)`) and writes the target bytes as its content at offset 0. -/
def pgfuse_symlink (cfg : FuseCtx) (db : Db) (tgt : List Nat) (toP : List String) :
    HRes Unit :=
  match psql_read_meta_from_path db (dirname toP) with
  | .error pe => ⟨pe, (), db, .rolledBack, true⟩
  | .ok (parent_id, pino) =>
    if ¬ S_ISDIR pino.meta.mode then ⟨-ENOENT, (), db, .rolledBack, true⟩ else
    if cfg.read_only then ⟨-EROFS, (), db, .rolledBack, true⟩ else
    let m : PgMeta :=
      { size := tgt.length, mode := 0o777 ||| S_IFLNK, uid := cfg.uid, gid := cfg.gid,
        ctime := cfg.tnow, mtime := cfg.tnow, atime := cfg.tnow, parent_id := 0 }
    match psql_create_file db parent_id (basename toP) m with
    | .error ce => ⟨ce, (), db, .rolledBack, true⟩
    | .ok db1 =>
      match psql_read_meta_from_path db1 toP with
      | .error e => ⟨e, (), db, .rolledBack, true⟩
      | .ok (id, _) =>
        match psql_write_buf db1 id tgt 0 with
        | .error e => ⟨e, (), db, .rolledBack, true⟩
        | .ok (written, db2) =>
          if written ≠ tgt.length then ⟨-EIO_c, (), db, .rolledBack, true⟩
          else ⟨0, (), db2, .committed, true⟩

/-- `pgfuse_rename` (src/pgfuse.c:1285).  Note the early returns after
`PSQL_BEGIN` (the two resolution failures and the three destination-exists
outcomes) leave the transaction open and the connection unreleased, exactly
as in the C code. -/
def pgfuse_rename (cfg : FuseCtx) (db : Db) (fromP toP : List String) :
    HRes Unit :=
  match psql_read_meta_from_path db fromP with
  | .error e => ⟨e, (), db, .leaked, false⟩
  | .ok (from_id, from_ino) =>
    match psql_read_meta_from_path db toP with
    | .ok (to_id, to_ino) =>
      if 0 < to_id then
        (if S_ISREG to_ino.meta.mode then
          (if fromP = toP then ⟨0, (), db, .leaked, false⟩
           else ⟨-EEXIST, (), db, .leaked, false⟩)
         else ⟨-EINVAL, (), db, .leaked, false⟩)
      else pgfuse_rename_tail cfg db fromP toP from_id from_ino
    | .error e =>
      if e ≠ -ENOENT then ⟨e, (), db, .leaked, false⟩
      else pgfuse_rename_tail cfg db fromP toP from_id from_ino
where
  /-- The part of `pgfuse_rename` past the destination-exists checks
  (src/pgfuse.c:1334 onwards). -/
  pgfuse_rename_tail (cfg : FuseCtx) (db : Db) (fromP toP : List String)
      (from_id : Nat) (from_ino : Inode) : HRes Unit :=
    match psql_read_meta_from_path db (dirname toP) with
    | .error pe => ⟨pe, (), db, .rolledBack, true⟩
    | .ok (to_parent_id, to_parent_ino) =>
      if ¬ S_ISDIR to_parent_ino.meta.mode then ⟨-EIO_c, (), db, .rolledBack, true⟩ else
      if cfg.read_only then ⟨-EROFS, (), db, .rolledBack, true⟩ else
      let r := psql_rename db from_id to_parent_id (basename toP)
      ⟨r.1, (), r.2, .committed, true⟩

/-- `pgfuse_readlink` (src/pgfuse.c:1383): the out value is the content of the
caller's buffer, bytes 0..size of the link target followed by the NUL
terminator. -/
def pgfuse_readlink (cfg : FuseCtx) (db : Db) (path : List String) (buflen : Nat) :
    HRes (List Nat) :=
  match psql_read_meta_from_path db path with
  | .error e => ⟨e, [], db, .rolledBack, true⟩
  | .ok (id, ino) =>
    if ¬ S_ISLNK ino.meta.mode then ⟨-ENOENT, [], db, .rolledBack, true⟩ else
    if buflen < ino.meta.size + 1 then ⟨-ENOMEM, [], db, .rolledBack, true⟩ else
    match psql_read_buf db id 0 ino.meta.size with
    | .error e => ⟨e, [], db, .rolledBack, true⟩
    | .ok (_, bytes) => ⟨0, bytes ++ [0], db, .committed, true⟩

/-- `pgfuse_utimens` (src/pgfuse.c:1427): sets atime and mtime; note that the
C code performs no read-only-mount check in this handler. -/
def pgfuse_utimens (cfg : FuseCtx) (db : Db) (path : List String)
    (tv0 tv1 : Timespec) : HRes Unit :=
  match psql_read_meta_from_path db path with
  | .error e => ⟨e, (), db, .rolledBack, true⟩
  | .ok (id, ino) =>
    match psql_write_meta db id { ino.meta with atime := tv0, mtime := tv1 } with
    | .error e => ⟨e, (), db, .rolledBack, true⟩
    | .ok db1 => ⟨0, (), db1, .committed, true⟩

/-- Fixture: a timestamp used by the concrete databases below. -/
def ts5 : Timespec := ⟨5, 0⟩

/-- Fixture: the root inode (id 1, two children). -/
def rootIno : Inode := ⟨"/", ⟨2, 0o040755, 0, 0, ts5, ts5, ts5, 1⟩, []⟩

/-- Fixture: a regular file "/a" (id 2) holding the two bytes "Hi". -/
def fileIno : Inode := ⟨"a", ⟨2, 0o100644, 0, 0, ts5, ts5, ts5, 1⟩, [72, 105]⟩

/-- Fixture: an empty directory "/d" (id 3). -/
def dirIno : Inode := ⟨"d", ⟨0, 0o040755, 0, 0, ts5, ts5, ts5, 1⟩, []⟩

/-- Fixture: a small concrete database (root, one file, one directory). -/
def db0 : Db := ⟨1, [(1, rootIno), (2, fileIno), (3, dirIno)]⟩

/-- Fixture: a read-write mount configuration. -/
def cfgRW : FuseCtx := ⟨false, 512, 1000, 100, ⟨9, 0⟩⟩

/-- Fixture: the same configuration mounted read-only. -/
def cfgRO : FuseCtx := ⟨true, 512, 1000, 100, ⟨9, 0⟩⟩

/-! Helper lemmas about the table operations. -/

theorem find?_map_of_pred (g : Nat × Inode → Nat × Inode) (P : Nat × Inode → Bool)
    (hg : ∀ p, P (g p) = P p) :
    ∀ l : List (Nat × Inode), (l.map g).find? P = (l.find? P).map g
  | [] => rfl
  | hd :: tl => by
    simp only [List.map_cons, List.find?_cons, hg hd]
    cases h : P hd
    · simp [find?_map_of_pred g P hg tl]
    · simp

theorem updateInode_rootId (db : Db) (j : Nat) (f : Inode → Inode) :
    (db.updateInode j f).rootId = db.rootId := rfl

theorem consIno_rootId (db : Db) (nid : Nat) (nino : Inode) :
    (db.consIno nid nino).rootId = db.rootId := rfl

theorem find_updateInode (db : Db) (j : Nat) (f : Inode → Inode) (i : Nat) :
    (db.updateInode j f).find i = if i = j then (db.find i).map f else db.find i := by
  unfold Db.updateInode Db.find
  rw [find?_map_of_pred (fun p => if p.1 == j then (p.1, f p.2) else p)
        (fun p => p.1 == i) (fun p => by by_cases h : p.1 = j <;> simp [h]) db.inodes]
  cases hfind : db.inodes.find? (fun p => p.1 == i) with
  | none => by_cases h : i = j <;> simp [h]
  | some q =>
    have hq : q.1 = i := by
      have := List.find?_some hfind
      simpa using this
    by_cases h : i = j <;> simp [h, hq]

theorem child_updateInode (db : Db) (j : Nat) (f : Inode → Inode)
    (hname : ∀ ino, (f ino).name = ino.name)
    (hpar : ∀ ino, (f ino).meta.parent_id = ino.meta.parent_id)
    (q : Nat) (c : String) :
    (db.updateInode j f).child q c =
      (db.child q c).map (fun p => if p.1 == j then (p.1, f p.2) else p) := by
  unfold Db.updateInode Db.child
  exact find?_map_of_pred _ _
    (fun p => by by_cases h : p.1 = j <;> simp [h, hname, hpar]) db.inodes

theorem find_consIno (db : Db) (nid : Nat) (nino : Inode) (i : Nat) :
    (db.consIno nid nino).find i = if nid == i then some nino else db.find i := by
  unfold Db.consIno Db.find
  simp only [List.find?_cons]
  cases h : (nid == i) <;> simp [h]

theorem child_consIno (db : Db) (nid : Nat) (nino : Inode) (q : Nat) (c : String) :
    (db.consIno nid nino).child q c =
      if nino.meta.parent_id == q && nino.name == c && nid != q
      then some (nid, nino) else db.child q c := by
  unfold Db.consIno Db.child
  simp only [List.find?_cons]
  cases h : (nino.meta.parent_id == q && nino.name == c && nid != q) <;> simp [h]

/-! Resolution lemmas. -/

theorem resolve_loop_append (db : Db) (c : String) :
    ∀ (p : List String) (id : Nat) (ino : Inode),
      resolve_loop db id ino (p ++ [c]) =
        match resolve_loop db id ino p with
        | .error e => .error e
        | .ok (rid, rino) =>
          if S_ISDIR rino.meta.mode then
            match db.child rid c with
            | none => .error (-ENOENT)
            | some (cid, cino) => .ok (cid, cino)
          else .error (-ENOTDIR)
  | [], id, ino => by
    simp only [List.nil_append, resolve_loop]
  | c0 :: rest, id, ino => by
    simp only [List.cons_append, resolve_loop]
    by_cases hdir : S_ISDIR ino.meta.mode
    · simp only [hdir, if_true]
      cases db.child id c0 with
      | none => rfl
      | some q =>
        cases q with
        | mk cid cino => exact resolve_loop_append db c rest cid cino
    · simp [hdir]

theorem resolve_append (db : Db) (p : List String) (c : String) :
    psql_read_meta_from_path db (p ++ [c]) =
      match psql_read_meta_from_path db p with
      | .error e => .error e
      | .ok (rid, rino) =>
        if S_ISDIR rino.meta.mode then
          match db.child rid c with
          | none => .error (-ENOENT)
          | some (cid, cino) => .ok (cid, cino)
        else .error (-ENOTDIR) := by
  unfold psql_read_meta_from_path
  cases hroot : db.find db.rootId with
  | none => rfl
  | some root => exact resolve_loop_append db c p db.rootId root

theorem resolve_loop_updateInode (db : Db) (j : Nat) (f : Inode → Inode)
    (hname : ∀ ino, (f ino).name = ino.name)
    (hpar : ∀ ino, (f ino).meta.parent_id = ino.meta.parent_id)
    (hmode : ∀ ino, (f ino).meta.mode = ino.meta.mode) :
    ∀ (p : List String) (id : Nat) (ino : Inode) (rid : Nat) (rino : Inode),
      resolve_loop db id ino p = .ok (rid, rino) →
      resolve_loop (db.updateInode j f) id (if id == j then f ino else ino) p
        = .ok (rid, if rid == j then f rino else rino)
  | [], id, ino, rid, rino => by
    intro h
    simp only [resolve_loop] at h
    cases h
    rfl
  | c :: rest, id, ino, rid, rino => by
    intro h
    simp only [resolve_loop] at h ⊢
    by_cases hdir : S_ISDIR ino.meta.mode
    case neg => rw [if_neg hdir] at h; exact absurd h (by simp)
    case pos =>
      rw [if_pos hdir] at h
      have hdir' : S_ISDIR (if id == j then f ino else ino).meta.mode = true := by
        cases hij : (id == j) <;> simp [hij, hmode, hdir]
      rw [if_pos hdir']
      cases hch : db.child id c with
      | none => rw [hch] at h; exact absurd h (by simp)
      | some q =>
        cases q with
        | mk cid cino =>
          rw [hch] at h
          rw [child_updateInode db j f hname hpar id c, hch]
          have hrec := resolve_loop_updateInode db j f hname hpar hmode rest cid cino rid rino h
          cases hcj : (cid == j) with
          | true =>
            have hq : cid = j := by simpa using hcj
            rw [hcj] at hrec
            simpa [hq] using hrec
          | false =>
            have hq : ¬ cid = j := by simpa using hcj
            rw [hcj] at hrec
            simpa [hq] using hrec

theorem resolve_updateInode (db : Db) (j : Nat) (f : Inode → Inode)
    (hname : ∀ ino, (f ino).name = ino.name)
    (hpar : ∀ ino, (f ino).meta.parent_id = ino.meta.parent_id)
    (hmode : ∀ ino, (f ino).meta.mode = ino.meta.mode)
    (p : List String) (rid : Nat) (rino : Inode)
    (h : psql_read_meta_from_path db p = .ok (rid, rino)) :
    psql_read_meta_from_path (db.updateInode j f) p
      = .ok (rid, if rid == j then f rino else rino) := by
  unfold psql_read_meta_from_path at h ⊢
  rw [updateInode_rootId, find_updateInode]
  cases hroot : db.find db.rootId with
  | none => rw [hroot] at h; exact absurd h (by simp)
  | some root =>
    rw [hroot] at h
    have hrec := resolve_loop_updateInode db j f hname hpar hmode p db.rootId root rid rino h
    by_cases hrj : db.rootId = j
    · rw [if_pos hrj]
      simpa [hrj] using hrec
    · rw [if_neg hrj]
      simpa [hrj] using hrec

theorem resolve_loop_consIno (db : Db) (nid : Nat) (nino : Inode)
    (hnone : db.child nino.meta.parent_id nino.name = none) :
    ∀ (p : List String) (id : Nat) (ino : Inode) (rid : Nat) (rino : Inode),
      resolve_loop db id ino p = .ok (rid, rino) →
      resolve_loop (db.consIno nid nino) id ino p = .ok (rid, rino)
  | [], id, ino, rid, rino => by
    intro h
    simpa [resolve_loop] using h
  | c :: rest, id, ino, rid, rino => by
    intro h
    simp only [resolve_loop] at h ⊢
    by_cases hdir : S_ISDIR ino.meta.mode
    case neg => rw [if_neg hdir] at h; exact absurd h (by simp)
    case pos =>
      rw [if_pos hdir] at h
      rw [if_pos hdir]
      cases hch : db.child id c with
      | none => rw [hch] at h; exact absurd h (by simp)
      | some q =>
        cases q with
        | mk cid cino =>
          rw [hch] at h
          rw [child_consIno]
          have hpred : (nino.meta.parent_id == id && nino.name == c && nid != id) = false := by
            cases hpi : (nino.meta.parent_id == id) with
            | false => simp [hpi]
            | true =>
              cases hnm : (nino.name == c) with
              | false => simp [hnm]
              | true =>
                exfalso
                have hid : nino.meta.parent_id = id := by simpa using hpi
                have hc : nino.name = c := by simpa using hnm
                rw [hid, hc] at hnone
                rw [hnone] at hch
                exact Option.noConfusion hch
          rw [hpred, if_neg (by simp), hch]
          exact resolve_loop_consIno db nid nino hnone rest cid cino rid rino h

theorem resolve_consIno (db : Db) (nid : Nat) (nino : Inode)
    (hnone : db.child nino.meta.parent_id nino.name = none)
    (hnr : nid ≠ db.rootId)
    (p : List String) (rid : Nat) (rino : Inode)
    (h : psql_read_meta_from_path db p = .ok (rid, rino)) :
    psql_read_meta_from_path (db.consIno nid nino) p = .ok (rid, rino) := by
  unfold psql_read_meta_from_path at h ⊢
  rw [consIno_rootId, find_consIno]
  have hb : (nid == db.rootId) = false := by simpa using hnr
  rw [hb, if_neg (by simp)]
  cases hroot : db.find db.rootId with
  | none => rw [hroot] at h; exact absurd h (by simp)
  | some root =>
    rw [hroot] at h
    exact resolve_loop_consIno db nid nino hnone p db.rootId root rid rino h

/-! Membership and freshness lemmas. -/

theorem le_fold_max (l : List (Nat × Inode)) :
    ∀ q ∈ l, q.1 ≤ l.foldr (fun p m => max p.1 m) 0 := by
  induction l with
  | nil => intro q hq; cases hq
  | cons hd tl ih =>
    intro q hq
    cases hq with
    | head => exact Nat.le_max_left _ _
    | tail _ hmem => exact Nat.le_trans (ih q hmem) (Nat.le_max_right _ _)

theorem lt_freshId (db : Db) (q : Nat × Inode) (hq : q ∈ db.inodes) :
    q.1 < db.freshId :=
  Nat.lt_succ_of_le (le_fold_max db.inodes q hq)

theorem find_isSome_mem (db : Db) (i : Nat) (ino : Inode)
    (h : db.find i = some ino) : ∃ e ∈ db.inodes, e.1 = i ∧ e.2 = ino := by
  unfold Db.find at h
  cases hf : db.inodes.find? (fun p => p.1 == i) with
  | none => rw [hf] at h; exact absurd h (by simp)
  | some e =>
    rw [hf] at h
    refine ⟨e, List.mem_of_find?_eq_some hf, ?_, ?_⟩
    · have := List.find?_some hf
      simpa using this
    · simpa using h

theorem find?_isSome_of_mem (l : List (Nat × Inode)) (e : Nat × Inode)
    (he : e ∈ l) (i : Nat) (hi : e.1 = i) :
    (l.find? (fun p => p.1 == i)).isSome := by
  induction l with
  | nil => cases he
  | cons hd tl ih =>
    cases he with
    | head =>
      simp only [List.find?_cons]
      rw [show (e.1 == i) = true by simpa using hi]
      rfl
    | tail _ hmem =>
      simp only [List.find?_cons]
      cases h : (hd.1 == i)
      · simpa using ih hmem
      · rfl

theorem find_isSome_of_mem (db : Db) (e : Nat × Inode) (he : e ∈ db.inodes)
    (i : Nat) (hi : e.1 = i) : (db.find i).isSome := by
  unfold Db.find
  have := find?_isSome_of_mem db.inodes e he i hi
  cases h : db.inodes.find? (fun p => p.1 == i)
  · rw [h] at this; exact absurd this (by simp)
  · rfl

theorem child_mem (db : Db) (q : Nat) (c : String) (cid : Nat) (cino : Inode)
    (h : db.child q c = some (cid, cino)) : (cid, cino) ∈ db.inodes :=
  List.mem_of_find?_eq_some h

theorem resolve_loop_ok_find_isSome (db : Db) :
    ∀ (p : List String) (id : Nat) (ino : Inode) (rid : Nat) (rino : Inode),
      (db.find id).isSome →
      resolve_loop db id ino p = .ok (rid, rino) → (db.find rid).isSome
  | [], id, ino, rid, rino => by
    intro hs h
    simp only [resolve_loop] at h
    cases h
    exact hs
  | c :: rest, id, ino, rid, rino => by
    intro hs h
    simp only [resolve_loop] at h
    by_cases hdir : S_ISDIR ino.meta.mode
    case neg => rw [if_neg hdir] at h; exact absurd h (by simp)
    case pos =>
      rw [if_pos hdir] at h
      cases hch : db.child id c with
      | none => rw [hch] at h; exact absurd h (by simp)
      | some cq =>
        cases cq with
        | mk cid cino =>
          rw [hch] at h
          have hmem := child_mem db id c cid cino hch
          exact resolve_loop_ok_find_isSome db rest cid cino rid rino
            (find_isSome_of_mem db (cid, cino) hmem cid rfl) h

theorem resolve_ok_find_isSome (db : Db) (p : List String) (rid : Nat) (rino : Inode)
    (h : psql_read_meta_from_path db p = .ok (rid, rino)) : (db.find rid).isSome := by
  unfold psql_read_meta_from_path at h
  cases hroot : db.find db.rootId with
  | none => rw [hroot] at h; exact absurd h (by simp)
  | some root =>
    rw [hroot] at h
    exact resolve_loop_ok_find_isSome db p db.rootId root rid rino
      (by rw [hroot]; rfl) h

theorem resolve_ok_lt_freshId (db : Db) (p : List String) (rid : Nat) (rino : Inode)
    (h : psql_read_meta_from_path db p = .ok (rid, rino)) : rid < db.freshId := by
  have hs := resolve_ok_find_isSome db p rid rino h
  cases hf : db.find rid with
  | none => rw [hf] at hs; exact absurd hs (by simp)
  | some ino =>
    obtain ⟨e, hmem, hfst, _⟩ := find_isSome_mem db rid ino hf
    have := lt_freshId db e hmem
    rw [hfst] at this
    exact this

theorem rootId_lt_freshId (db : Db) (root : Inode)
    (hroot : db.find db.rootId = some root) : db.rootId < db.freshId := by
  obtain ⟨e, hmem, hfst, _⟩ := find_isSome_mem db db.rootId root hroot
  have := lt_freshId db e hmem
  rw [hfst] at this
  exact this

theorem find_eq_of_mem_nodup :
    ∀ (l : List (Nat × Inode)), (l.map Prod.fst).Nodup →
    ∀ (i : Nat) (ino : Inode), (i, ino) ∈ l →
      (l.find? (fun p => p.1 == i)).map Prod.snd = some ino
  | [], _, i, ino, hmem => by cases hmem
  | hd :: tl, hnd, i, ino, hmem => by
    simp only [List.map_cons, List.nodup_cons] at hnd
    cases hmem with
    | head =>
      simp only [List.find?_cons]
      rw [show ((i, ino).1 == i) = true by simp]
      rfl
    | tail _ hmem =>
      simp only [List.find?_cons]
      cases h : (hd.1 == i) with
      | false => exact find_eq_of_mem_nodup tl hnd.2 i ino hmem
      | true =>
        exfalso
        have hi : hd.1 = i := by simpa using h
        apply hnd.1
        rw [hi]
        exact List.mem_map_of_mem Prod.fst hmem

theorem find_of_mem_nodup (db : Db) (hnd : (db.inodes.map Prod.fst).Nodup)
    (i : Nat) (ino : Inode) (hmem : (i, ino) ∈ db.inodes) : db.find i = some ino :=
  find_eq_of_mem_nodup db.inodes hnd i ino hmem

theorem resolve_loop_ok_find_nodup (db : Db) (hnd : (db.inodes.map Prod.fst).Nodup) :
    ∀ (p : List String) (id : Nat) (ino : Inode) (rid : Nat) (rino : Inode),
      db.find id = some ino →
      resolve_loop db id ino p = .ok (rid, rino) → db.find rid = some rino
  | [], id, ino, rid, rino => by
    intro hf h
    simp only [resolve_loop] at h
    cases h
    exact hf
  | c :: rest, id, ino, rid, rino => by
    intro hf h
    simp only [resolve_loop] at h
    by_cases hdir : S_ISDIR ino.meta.mode
    case neg => rw [if_neg hdir] at h; exact absurd h (by simp)
    case pos =>
      rw [if_pos hdir] at h
      cases hch : db.child id c with
      | none => rw [hch] at h; exact absurd h (by simp)
      | some cq =>
        cases cq with
        | mk cid cino =>
          rw [hch] at h
          have hmem := child_mem db id c cid cino hch
          exact resolve_loop_ok_find_nodup db hnd rest cid cino rid rino
            (find_of_mem_nodup db hnd cid cino hmem) h

theorem resolve_ok_find_nodup (db : Db) (hnd : (db.inodes.map Prod.fst).Nodup)
    (p : List String) (rid : Nat) (rino : Inode)
    (h : psql_read_meta_from_path db p = .ok (rid, rino)) :
    db.find rid = some rino := by
  unfold psql_read_meta_from_path at h
  cases hroot : db.find db.rootId with
  | none => rw [hroot] at h; exact absurd h (by simp)
  | some root =>
    rw [hroot] at h
    exact resolve_loop_ok_find_nodup db hnd p db.rootId root rid rino hroot h

/-! Path and content helper lemmas. -/

theorem dirname_append_basename :
    ∀ (p : List String), p ≠ [] → dirname p ++ [basename p] = p
  | [], h => absurd rfl h
  | [c], _ => rfl
  | c :: c' :: rest, _ => by
    have := dirname_append_basename (c' :: rest) (by simp)
    simp only [dirname, basename, List.cons_append]
    rw [this]

theorem range_map_getD : ∀ (l : List Nat), (List.range l.length).map (fun i => l.getD i 0) = l
  | [] => rfl
  | a :: l => by
    rw [List.length_cons, List.range_succ_eq_map]
    simp only [List.map_cons, List.map_map]
    rw [show (a :: l).getD 0 0 = a from rfl]
    congr 1
    have : ((fun i => (a :: l).getD i 0) ∘ Nat.succ) = (fun i => l.getD i 0) := by
      funext i
      rfl
    rw [this]
    exact range_map_getD l

theorem overlay_nil (buf : List Nat) : overlay [] 0 buf = buf := by
  unfold overlay
  rw [show max ([] : List Nat).length (0 + buf.length) = buf.length by simp]
  have : ∀ i ∈ List.range buf.length,
      (if 0 ≤ i ∧ i < 0 + buf.length then buf.getD (i - 0) 0 else ([] : List Nat).getD i 0)
        = buf.getD i 0 := by
    intro i hi
    rw [List.mem_range] at hi
    rw [if_pos ⟨Nat.zero_le i, by omega⟩, Nat.sub_zero]
  rw [List.map_congr_left this]
  exact range_map_getD buf

/-! The freshly created inode row resolves at the created path. -/

theorem createdDb_find_fresh (db : Db) (pid : Nat) (nm : String) (m : PgMeta) :
    (createdDb db pid nm m).find db.freshId = some (createdIno pid nm m) := by
  unfold createdDb
  rw [find_consIno]
  simp

theorem psql_create_file_fresh (db : Db) (pid : Nat) (nm : String) (m : PgMeta)
    (hfresh : db.child pid nm = none) (hps : (db.find pid).isSome) :
    psql_create_file db pid nm m = .ok (createdDb db pid nm m) := by
  unfold psql_create_file
  rw [hfresh]
  have hn : (db.find pid).isNone = false := by
    cases h : db.find pid with
    | none => rw [h] at hps; exact absurd hps (by simp)
    | some _ => rfl
  rw [hn]
  simp

theorem resolve_createdDb (db : Db) (p : List String) (pid : Nat) (pino : Inode)
    (m : PgMeta) (hp : p ≠ [])
    (hres : psql_read_meta_from_path db (dirname p) = .ok (pid, pino))
    (hdir : S_ISDIR pino.meta.mode = true)
    (hfresh : db.child pid (basename p) = none) :
    psql_read_meta_from_path (createdDb db pid (basename p) m) p
      = .ok (db.freshId, createdIno pid (basename p) m) := by
  have hroot : (db.find db.rootId).isSome := by
    unfold psql_read_meta_from_path at hres
    cases h : db.find db.rootId with
    | none => rw [h] at hres; exact absurd hres (by simp)
    | some _ => rfl
  have hrlt : db.rootId < db.freshId := by
    cases h : db.find db.rootId with
    | none => rw [h] at hroot; exact absurd hroot (by simp)
    | some root => exact rootId_lt_freshId db root h
  have hplt : pid < db.freshId := resolve_ok_lt_freshId db (dirname p) pid pino hres
  have h1 := resolve_updateInode db pid
    (fun ino => { ino with meta := { ino.meta with size := ino.meta.size + 1 } })
    (fun _ => rfl) (fun _ => rfl) (fun _ => rfl) (dirname p) pid pino hres
  rw [show (pid == pid) = true by simp, if_pos rfl] at h1
  have hnone2 : (db.updateInode pid
      (fun ino => { ino with meta := { ino.meta with size := ino.meta.size + 1 } })).child
        pid (basename p) = none := by
    rw [child_updateInode db pid
        (fun ino => { ino with meta := { ino.meta with size := ino.meta.size + 1 } })
        (fun _ => rfl) (fun _ => rfl) pid (basename p), hfresh]
    rfl
  have h2 := resolve_consIno
    (db.updateInode pid (fun ino => { ino with meta := { ino.meta with size := ino.meta.size + 1 } }))
    db.freshId (createdIno pid (basename p) m)
    (by exact hnone2)
    (by rw [updateInode_rootId]; omega)
    (dirname p) pid _ h1
  have h3 := resolve_append (createdDb db pid (basename p) m) (dirname p) (basename p)
  rw [dirname_append_basename p hp] at h3
  rw [h3]
  rw [show psql_read_meta_from_path (createdDb db pid (basename p) m) (dirname p)
      = .ok (pid, { pino with meta := { pino.meta with size := pino.meta.size + 1 } }) from h2]
  have hchild : (createdDb db pid (basename p) m).child pid (basename p)
      = some (db.freshId, createdIno pid (basename p) m) := by
    unfold createdDb
    rw [child_consIno]
    rw [show ((createdIno pid (basename p) m).meta.parent_id == pid
          && (createdIno pid (basename p) m).name == basename p
          && db.freshId != pid) = true by
      simp [createdIno]
      omega]
    rfl
  simp [hchild, hdir]

/-! Claim theorems. -/

/-- C1: the claim asserts that in read-only mount mode every mutating handler
returns -EROFS and leaves the database unchanged.  The code diverges: on the
fixture database, `pgfuse_write` on a read-only mount returns -EBADF instead
of -EROFS (src/pgfuse.c:761-764), and `pgfuse_utimens` performs no read-only
check at all (src/pgfuse.c:1427-1462), returning 0 and changing the stored
timestamps.  Handlers such as `mkdir` do return -EROFS and leave the state
unchanged, and `open` with a read-only access mode succeeds. -/
theorem C1_readonly_divergence :
    (pgfuse_write cfgRO db0 2 [65] 0).ret = -EBADF ∧
    (pgfuse_write cfgRO db0 2 [65] 0).ret ≠ -EROFS ∧
    (pgfuse_utimens cfgRO db0 ["a"] ⟨7, 0⟩ ⟨8, 0⟩).ret = 0 ∧
    (pgfuse_utimens cfgRO db0 ["a"] ⟨7, 0⟩ ⟨8, 0⟩).db ≠ db0 ∧
    (pgfuse_mkdir cfgRO db0 ["x"] 0o755).ret = -EROFS ∧
    (pgfuse_mkdir cfgRO db0 ["x"] 0o755).db = db0 ∧
    (pgfuse_create cfgRO db0 ["x"] 0o644).ret = -EROFS ∧
    (pgfuse_open cfgRO db0 ["a"] AccMode.rdonly).ret = 0 := by decide

/-- C2: the claim asserts every negative return follows a rollback and every
handler return releases the connection and terminates the transaction.  The
code diverges in `pgfuse_rename` (src/pgfuse.c:1305-1332): when resolving the
source path fails, the handler returns -ENOENT with the transaction still
open and the connection never released. -/
theorem C2_rename_leak :
    (pgfuse_rename cfgRW db0 ["nope"] ["x"]).ret = -ENOENT ∧
    (pgfuse_rename cfgRW db0 ["nope"] ["x"]).txn = Txn.leaked ∧
    (pgfuse_rename cfgRW db0 ["nope"] ["x"]).released = false := by decide

/-- C3 counterexample: the claim states that `rename(from, to)` with
`from = to` always succeeds as a no-op, but renaming the directory "/d" onto
itself takes the destination-not-regular branch and returns -EINVAL
(src/pgfuse.c:1319-1332). -/
theorem C3_rename_self_dir_counterexample :
    psql_read_meta_from_path db0 ["d"] = .ok (3, dirIno) ∧
    S_ISDIR dirIno.meta.mode = true ∧
    (pgfuse_rename cfgRW db0 ["d"] ["d"]).ret = -EINVAL ∧
    (pgfuse_rename cfgRW db0 ["d"] ["d"]).ret ≠ 0 :=
  ⟨rfl, by decide, by decide, by decide⟩

/-- C6: the claim asserts `getattr` and `fgetattr` return identical metadata
after a successful open.  The code diverges: `pgfuse_fgetattr`
(src/pgfuse.c:157-201) never assigns the timestamp fields, leaving the
`memset` zeros, while `pgfuse_getattr` (src/pgfuse.c:203-250) fills them from
the inode.  On the fixture file "/a" (ctime 5) the two results differ. -/
theorem C6_fgetattr_divergence :
    (pgfuse_open cfgRW db0 ["a"] AccMode.rdonly).ret = 0 ∧
    (pgfuse_open cfgRW db0 ["a"] AccMode.rdonly).val = some 2 ∧
    (pgfuse_getattr cfgRW (pgfuse_open cfgRW db0 ["a"] AccMode.rdonly).db ["a"]).val.st_ctime = 5 ∧
    (pgfuse_fgetattr cfgRW (pgfuse_open cfgRW db0 ["a"] AccMode.rdonly).db 2).val.st_ctime = 0 ∧
    (pgfuse_getattr cfgRW (pgfuse_open cfgRW db0 ["a"] AccMode.rdonly).db ["a"]).val
      ≠ (pgfuse_fgetattr cfgRW (pgfuse_open cfgRW db0 ["a"] AccMode.rdonly).db 2).val ∧
    (pgfuse_getattr cfgRW (pgfuse_open cfgRW db0 ["a"] AccMode.rdonly).db ["a"]).val.st_ino
      = (pgfuse_fgetattr cfgRW (pgfuse_open cfgRW db0 ["a"] AccMode.rdonly).db 2).val.st_ino := by
  decide

/-- C9 counterexample: the claim states `fsync` is a no-op returning 0 for
every input including a read-only mount, but `pgfuse_fsync`
(src/pgfuse.c:699-722) returns -EROFS on a read-only mount. -/
theorem C9_fsync_counterexample :
    (pgfuse_fsync cfgRO db0 1).1 = -EROFS ∧
    (pgfuse_fsync cfgRO db0 1).1 ≠ 0 ∧
    (pgfuse_fsync cfgRW db0 0).1 = -EBADF := by decide

/-- C9 (amended): `flush`, `release`, `opendir`, `releasedir`, `fsyncdir` and
`access` return 0 and change no state for every input; `fsync` also changes
no state, but returns -EROFS on a read-only mount and -EBADF for a zero file
handle, and 0 otherwise. -/
theorem C9_noop_handlers (cfg : FuseCtx) (db : Db) (path : List String)
    (mode : Nat) (fh : Nat) (ds : Bool) :
    pgfuse_flush cfg db fh = (0, db) ∧
    pgfuse_release cfg db fh = (0, db) ∧
    pgfuse_opendir cfg db path = (0, db) ∧
    pgfuse_releasedir cfg db path = (0, db) ∧
    pgfuse_fsyncdir cfg db path ds = (0, db) ∧
    pgfuse_access cfg db path mode = (0, db) ∧
    pgfuse_fsync cfg db fh =
      (if cfg.read_only then -EROFS else if fh == 0 then -EBADF else 0, db) :=
  ⟨rfl, rfl, rfl, rfl, rfl, rfl, rfl⟩

/-- C3 (amended): for every pair of paths, when the destination resolves to
an existing regular file, `rename` returns -EEXIST without changing the
database when the two paths differ (so both paths still resolve afterwards),
and succeeds as a no-op when they are equal; when the destination exists but
is not a regular file (file-over-directory, directory-over-anything, and a
directory renamed onto itself), it returns -EINVAL (src/pgfuse.c:1313-1332). -/
theorem C3_rename_semantics (cfg : FuseCtx) (db : Db) (fromP toP : List String)
    (tid : Nat) (tino : Inode)
    (hto : psql_read_meta_from_path db toP = .ok (tid, tino)) (htid : 0 < tid) :
    (∀ fid fino, psql_read_meta_from_path db fromP = .ok (fid, fino) →
      S_ISREG tino.meta.mode = true → fromP ≠ toP →
      (pgfuse_rename cfg db fromP toP).ret = -EEXIST ∧
      (pgfuse_rename cfg db fromP toP).db = db ∧
      psql_read_meta_from_path (pgfuse_rename cfg db fromP toP).db fromP = .ok (fid, fino) ∧
      psql_read_meta_from_path (pgfuse_rename cfg db fromP toP).db toP = .ok (tid, tino)) ∧
    (S_ISREG tino.meta.mode = true → fromP = toP →
      (pgfuse_rename cfg db fromP toP).ret = 0 ∧
      (pgfuse_rename cfg db fromP toP).db = db) ∧
    (∀ fid fino, psql_read_meta_from_path db fromP = .ok (fid, fino) →
      S_ISREG tino.meta.mode = false →
      (pgfuse_rename cfg db fromP toP).ret = -EINVAL ∧
      (pgfuse_rename cfg db fromP toP).db = db) := by
  refine ⟨?_, ?_, ?_⟩
  · intro fid fino hfrom hreg hne
    have : pgfuse_rename cfg db fromP toP = ⟨-EEXIST, (), db, .leaked, false⟩ := by
      unfold pgfuse_rename
      rw [hfrom, hto]
      simp [htid, hreg, hne]
    rw [this, hfrom, hto]
    exact ⟨rfl, rfl, rfl, rfl⟩
  · intro hreg heq
    have : pgfuse_rename cfg db fromP toP = ⟨0, (), db, .leaked, false⟩ := by
      unfold pgfuse_rename
      subst heq
      rw [hto]
      simp [htid, hreg]
    rw [this]
    exact ⟨rfl, rfl⟩
  · intro fid fino hfrom hreg
    have : pgfuse_rename cfg db fromP toP = ⟨-EINVAL, (), db, .leaked, false⟩ := by
      unfold pgfuse_rename
      rw [hfrom, hto]
      simp [htid, hreg]
    rw [this]
    exact ⟨rfl, rfl⟩

/-- C3 witness: the amended rename semantics evaluated on the fixture
database: renaming the file "/a" onto itself is a no-op, renaming "/d" onto
the regular file "/a" yields -EEXIST, and renaming "/a" onto the directory
"/d" yields -EINVAL. -/
theorem C3_rename_semantics_witness :
    (pgfuse_rename cfgRW db0 ["a"] ["a"]).ret = 0 ∧
    (pgfuse_rename cfgRW db0 ["d"] ["a"]).ret = -EEXIST ∧
    (pgfuse_rename cfgRW db0 ["a"] ["d"]).ret = -EINVAL := by
  have h1 := C3_rename_semantics cfgRW db0 ["a"] ["a"] 2 fileIno rfl (by decide)
  have h2 := C3_rename_semantics cfgRW db0 ["d"] ["a"] 2 fileIno rfl (by decide)
  have h3 := C3_rename_semantics cfgRW db0 ["a"] ["d"] 3 dirIno rfl (by decide)
  exact ⟨(h1.2.1 (by decide) rfl).1,
         (h2.1 3 dirIno rfl (by decide) (by decide)).1,
         (h3.2.2 2 fileIno rfl (by decide)).1⟩

/-- C4: for every open file of current size S, a successful
`write(length bytes at offset)` returns `length` and stores size
`max S (offset + length)` (src/pgfuse.c:772-774,788,796); and whenever the
block engine reports a written byte count different from `length`, the
handler returns -EIO after rollback, leaving the database (hence the size)
unchanged (src/pgfuse.c:781-786). -/
theorem C4_write_semantics (cfg : FuseCtx) (db : Db) (fh : Nat) (buf : List Nat)
    (off : Nat) (ino : Inode)
    (hfh : fh ≠ 0) (hro : cfg.read_only = false) (hfind : db.find fh = some ino) :
    ((pgfuse_write cfg db fh buf off).ret = (buf.length : Int) ∧
      ∃ ino', (pgfuse_write cfg db fh buf off).db.find fh = some ino' ∧
        ino'.meta.size = max ino.meta.size (off + buf.length)) ∧
    (∀ engine r db1, engine db fh buf off = Except.ok (r, db1) → r ≠ buf.length →
      (pgfuse_write_gen engine cfg db fh buf off).ret = -EIO_c ∧
      (pgfuse_write_gen engine cfg db fh buf off).db = db ∧
      (pgfuse_write_gen engine cfg db fh buf off).txn = Txn.rolledBack) := by
  have hb : (fh == 0) = false := by simpa using hfh
  have hmeta : psql_read_meta db fh = .ok ino := by
    unfold psql_read_meta
    rw [hfind]
  constructor
  · have hbuf : psql_write_buf db fh buf off
        = .ok (buf.length, db.updateInode fh (fun i => { i with content := overlay ino.content off buf })) := by
      unfold psql_write_buf
      rw [hfind]
    have hfind1 : (db.updateInode fh (fun i => { i with content := overlay ino.content off buf })).find fh
        = some { ino with content := overlay ino.content off buf } := by
      rw [find_updateInode, if_pos rfl, hfind]
      rfl
    have hwm : psql_write_meta
          (db.updateInode fh (fun i => { i with content := overlay ino.content off buf })) fh
          (if ino.meta.size < off + buf.length
           then { ino.meta with size := off + buf.length } else ino.meta)
        = .ok ((db.updateInode fh (fun i => { i with content := overlay ino.content off buf })).updateInode fh
            (fun i2 => { i2 with meta :=
              { (if ino.meta.size < off + buf.length
                 then { ino.meta with size := off + buf.length } else ino.meta)
                with parent_id := i2.meta.parent_id } })) := by
      unfold psql_write_meta
      rw [hfind1]
    unfold pgfuse_write pgfuse_write_gen
    rw [hb, if_neg (by simp), hro, if_neg (by simp), hmeta, hbuf]
    simp only [ne_eq, not_true_eq_false, if_false, hwm]
    refine ⟨trivial, ?_⟩
    refine ⟨⟨ino.name,
      { (if ino.meta.size < off + buf.length
         then { ino.meta with size := off + buf.length } else ino.meta)
        with parent_id := ino.meta.parent_id },
      overlay ino.content off buf⟩, ?_, ?_⟩
    · rw [find_updateInode, if_pos rfl, hfind1]
      rfl
    · show (if ino.meta.size < off + buf.length
            then { ino.meta with size := off + buf.length } else ino.meta).size
          = max ino.meta.size (off + buf.length)
      by_cases hlt : ino.meta.size < off + buf.length
      · rw [if_pos hlt]
        exact (Nat.max_eq_right (Nat.le_of_lt hlt)).symm
      · rw [if_neg hlt]
        exact (Nat.max_eq_left (Nat.le_of_not_lt hlt)).symm
  · intro engine r db1 heng hne
    unfold pgfuse_write_gen
    rw [hb, if_neg (by simp), hro, if_neg (by simp), hmeta, heng]
    simp only [ne_eq, hne, not_false_eq_true, if_true]
    exact ⟨trivial, trivial, trivial⟩

/-- C4 witness: writing the three bytes [1,2,3] at offset 1 into the fixture
file "/a" (size 2) returns 3 and grows the size to 4 = max 2 (1+3); a faulty
engine reporting 0 bytes written makes the handler return -EIO with the
database unchanged. -/
theorem C4_write_semantics_witness :
    (pgfuse_write cfgRW db0 2 [1, 2, 3] 1).ret = 3 ∧
    (pgfuse_write_gen (fun d _ _ _ => Except.ok (0, d)) cfgRW db0 2 [1, 2, 3] 1).ret = -EIO_c ∧
    (pgfuse_write_gen (fun d _ _ _ => Except.ok (0, d)) cfgRW db0 2 [1, 2, 3] 1).db = db0 := by
  have h := C4_write_semantics cfgRW db0 2 [1, 2, 3] 1 fileIno
    (by decide) (by decide) rfl
  have h2 := h.2 (fun d _ _ _ => Except.ok (0, d)) 0 db0 rfl (by decide)
  exact ⟨h.1.1, h2.1, h2.2.1⟩

/-- C7: for every resolving path, `getattr` (src/pgfuse.c:233-245) reports
`nlink = 1`, `blksize = B`, and a block count equal to `(size + B - 1) / B`,
which is exactly `⌈size / B⌉`: the least `k` with `size ≤ k * B`. -/
theorem C7_getattr_blocks (cfg : FuseCtx) (db : Db) (p : List String)
    (id : Nat) (ino : Inode) (hB : 0 < cfg.block_size)
    (h : psql_read_meta_from_path db p = .ok (id, ino)) :
    (pgfuse_getattr cfg db p).ret = 0 ∧
    (pgfuse_getattr cfg db p).val.st_nlink = 1 ∧
    (pgfuse_getattr cfg db p).val.st_blksize = cfg.block_size ∧
    (pgfuse_getattr cfg db p).val.st_blocks
      = (ino.meta.size + cfg.block_size - 1) / cfg.block_size ∧
    ino.meta.size ≤ (pgfuse_getattr cfg db p).val.st_blocks * cfg.block_size ∧
    (∀ k, ino.meta.size ≤ k * cfg.block_size →
      (pgfuse_getattr cfg db p).val.st_blocks ≤ k) := by
  have hrun : pgfuse_getattr cfg db p =
      ⟨0, { stat0 with
              st_ino := id,
              st_mode := ino.meta.mode,
              st_size := ino.meta.size,
              st_blksize := cfg.block_size,
              st_blocks := (ino.meta.size + cfg.block_size - 1) / cfg.block_size,
              st_nlink := 1,
              st_uid := ino.meta.uid,
              st_gid := ino.meta.gid,
              st_atime := ino.meta.atime.tv_sec,
              st_mtime := ino.meta.mtime.tv_sec,
              st_ctime := ino.meta.ctime.tv_sec },
        db, .committed, true⟩ := by
    unfold pgfuse_getattr
    rw [h]
  rw [hrun]
  refine ⟨rfl, rfl, rfl, rfl, ?_, ?_⟩
  · show ino.meta.size ≤ (ino.meta.size + cfg.block_size - 1) / cfg.block_size * cfg.block_size
    cases hS : ino.meta.size with
    | zero => exact Nat.zero_le _
    | succ s =>
      have he : s + 1 + cfg.block_size - 1 = s + cfg.block_size := by omega
      rw [he, Nat.add_div_right s hB]
      have h1 : cfg.block_size * (s / cfg.block_size) + s % cfg.block_size = s :=
        Nat.div_add_mod s cfg.block_size
      have h2 : s % cfg.block_size < cfg.block_size := Nat.mod_lt s hB
      rw [Nat.succ_mul, Nat.mul_comm]
      generalize hx : cfg.block_size * (s / cfg.block_size) = x at h1 ⊢
      generalize hr : s % cfg.block_size = r at h1 h2
      omega
  · intro k hk
    show (ino.meta.size + cfg.block_size - 1) / cfg.block_size ≤ k
    cases hS : ino.meta.size with
    | zero =>
      have : (0 + cfg.block_size - 1) / cfg.block_size = 0 :=
        Nat.div_eq_of_lt (by omega)
      rw [this]
      exact Nat.zero_le k
    | succ s =>
      rw [hS] at hk
      have he : s + 1 + cfg.block_size - 1 = s + cfg.block_size := by omega
      rw [he, Nat.add_div_right s hB]
      by_contra hcon
      have hk2 : k ≤ s / cfg.block_size := by omega
      have hmul : k * cfg.block_size ≤ s / cfg.block_size * cfg.block_size :=
        Nat.mul_le_mul_right cfg.block_size hk2
      have h3 : s / cfg.block_size * cfg.block_size ≤ s :=
        Nat.div_mul_le_self s cfg.block_size
      have : s + 1 ≤ s := Nat.le_trans hk (Nat.le_trans hmul h3)
      exact absurd this (by omega)

/-- C7 witness: the fixture file "/a" (size 2, block size 512) is reported
with 1 block, nlink 1 and blksize 512. -/
theorem C7_getattr_blocks_witness :
    (pgfuse_getattr cfgRW db0 ["a"]).val.st_blocks = 1 ∧
    (pgfuse_getattr cfgRW db0 ["a"]).val.st_nlink = 1 ∧
    (pgfuse_getattr cfgRW db0 ["a"]).val.st_blksize = 512 ∧
    fileIno.meta.size ≤ (pgfuse_getattr cfgRW db0 ["a"]).val.st_blocks * 512 := by
  have h := C7_getattr_blocks cfgRW db0 ["a"] 2 fileIno (by decide) rfl
  exact ⟨by decide, h.2.1, h.2.2.1, h.2.2.2.2.1⟩

/-- C8: `readlink(path, buflen)` (src/pgfuse.c:1383-1425) on a resolving
path returns -ENOENT when the object is not a symlink, -ENOMEM when
`buflen < size + 1`, and otherwise writes bytes 0..size of the target
followed by the NUL terminator into the buffer and returns 0; the database
is unchanged in all three cases. -/
theorem C8_readlink_semantics (cfg : FuseCtx) (db : Db) (p : List String)
    (buflen : Nat) (id : Nat) (ino : Inode)
    (hnd : (db.inodes.map Prod.fst).Nodup)
    (h : psql_read_meta_from_path db p = .ok (id, ino)) :
    (S_ISLNK ino.meta.mode = false →
      (pgfuse_readlink cfg db p buflen).ret = -ENOENT ∧
      (pgfuse_readlink cfg db p buflen).db = db) ∧
    (S_ISLNK ino.meta.mode = true → buflen < ino.meta.size + 1 →
      (pgfuse_readlink cfg db p buflen).ret = -ENOMEM ∧
      (pgfuse_readlink cfg db p buflen).db = db) ∧
    (S_ISLNK ino.meta.mode = true → ino.meta.size + 1 ≤ buflen →
      (pgfuse_readlink cfg db p buflen).ret = 0 ∧
      (pgfuse_readlink cfg db p buflen).val
        = (List.range ino.meta.size).map (fun i => ino.content.getD i 0) ++ [0] ∧
      (pgfuse_readlink cfg db p buflen).db = db) := by
  have hfind : db.find id = some ino := resolve_ok_find_nodup db hnd p id ino h
  refine ⟨?_, ?_, ?_⟩
  · intro hlnk
    have : pgfuse_readlink cfg db p buflen = ⟨-ENOENT, [], db, .rolledBack, true⟩ := by
      unfold pgfuse_readlink
      rw [h]
      simp [hlnk]
    rw [this]
    exact ⟨rfl, rfl⟩
  · intro hlnk hlt
    have : pgfuse_readlink cfg db p buflen = ⟨-ENOMEM, [], db, .rolledBack, true⟩ := by
      unfold pgfuse_readlink
      rw [h]
      simp [hlnk, hlt]
    rw [this]
    exact ⟨rfl, rfl⟩
  · intro hlnk hge
    have hrb : psql_read_buf db id 0 ino.meta.size
        = .ok (ino.meta.size,
               (List.range ino.meta.size).map (fun i => ino.content.getD i 0)) := by
      unfold psql_read_buf
      rw [hfind]
      simp
    have : pgfuse_readlink cfg db p buflen =
        ⟨0, (List.range ino.meta.size).map (fun i => ino.content.getD i 0) ++ [0],
          db, .committed, true⟩ := by
      unfold pgfuse_readlink
      rw [h]
      simp [hlnk, hrb, show ¬ buflen < ino.meta.size + 1 by omega]
    rw [this]
    exact ⟨rfl, rfl, rfl⟩

/-- C8 witness: on a symlink "/s" with target "hi" added to the fixture
database, `readlink` with buffer 3 returns the bytes of the target followed
by NUL, while readlink of the regular file "/a" yields -ENOENT and a buffer
of size 2 yields -ENOMEM. -/
theorem C8_readlink_semantics_witness :
    (pgfuse_readlink cfgRW (pgfuse_symlink cfgRW db0 [104, 105] ["s"]).db ["s"] 3).ret = 0 ∧
    (pgfuse_readlink cfgRW (pgfuse_symlink cfgRW db0 [104, 105] ["s"]).db ["s"] 2).ret = -ENOMEM ∧
    (pgfuse_readlink cfgRW db0 ["a"] 10).ret = -ENOENT := by
  have hlnk := C8_readlink_semantics cfgRW (pgfuse_symlink cfgRW db0 [104, 105] ["s"]).db
    ["s"] 3 4 ⟨"s", ⟨2, 0o120777, 1000, 100, ⟨9, 0⟩, ⟨9, 0⟩, ⟨9, 0⟩, 1⟩, [104, 105]⟩
    (by decide) rfl
  have hsm := C8_readlink_semantics cfgRW (pgfuse_symlink cfgRW db0 [104, 105] ["s"]).db
    ["s"] 2 4 ⟨"s", ⟨2, 0o120777, 1000, 100, ⟨9, 0⟩, ⟨9, 0⟩, ⟨9, 0⟩, 1⟩, [104, 105]⟩
    (by decide) rfl
  have hreg := C8_readlink_semantics cfgRW db0 ["a"] 10 2 fileIno (by decide) rfl
  exact ⟨(hlnk.2.2 (by decide) (by decide)).1,
         (hsm.2.1 (by decide) (by decide)).1,
         (hreg.1 (by decide)).1⟩

/-- C5: `create(path, mode)` (src/pgfuse.c:287-404) returns -ENOENT when the
parent does not exist and -ENOTDIR when the parent exists but is not a
directory (the latter produced by the full-path resolution walk hitting the
non-directory as an intermediate component); when the path already resolves,
it returns -EISDIR for a directory victim and -EEXIST otherwise; on success
it stores the new inode with all three timestamps set to the current time
and uid/gid taken from the calling context, and puts the new inode id into
the file handle. -/
theorem C5_create_semantics (cfg : FuseCtx) (db : Db) (p : List String) (mode : Nat)
    (hro : cfg.read_only = false) :
    (psql_read_meta_from_path db p = .error (-ENOENT) →
     psql_read_meta_from_path db (dirname p) = .error (-ENOENT) →
      (pgfuse_create cfg db p mode).ret = -ENOENT ∧
      (pgfuse_create cfg db p mode).db = db) ∧
    (∀ pid pino, p ≠ [] →
     psql_read_meta_from_path db (dirname p) = .ok (pid, pino) →
     S_ISDIR pino.meta.mode = false →
      (pgfuse_create cfg db p mode).ret = -ENOTDIR ∧
      (pgfuse_create cfg db p mode).db = db) ∧
    (∀ id ino, psql_read_meta_from_path db p = .ok (id, ino) →
     S_ISDIR ino.meta.mode = true →
      (pgfuse_create cfg db p mode).ret = -EISDIR ∧
      (pgfuse_create cfg db p mode).db = db) ∧
    (∀ id ino, psql_read_meta_from_path db p = .ok (id, ino) →
     S_ISDIR ino.meta.mode = false →
      (pgfuse_create cfg db p mode).ret = -EEXIST ∧
      (pgfuse_create cfg db p mode).db = db) ∧
    (∀ pid pino, p ≠ [] →
     psql_read_meta_from_path db (dirname p) = .ok (pid, pino) →
     S_ISDIR pino.meta.mode = true →
     db.child pid (basename p) = none →
      (pgfuse_create cfg db p mode).ret = 0 ∧
      (pgfuse_create cfg db p mode).val = some db.freshId ∧
      (pgfuse_create cfg db p mode).db.find db.freshId
        = some ⟨basename p,
                ⟨0, mode, cfg.uid, cfg.gid, cfg.tnow, cfg.tnow, cfg.tnow, pid⟩, []⟩) := by
  refine ⟨?_, ?_, ?_, ?_, ?_⟩
  · intro hfull hpar
    have : pgfuse_create cfg db p mode = ⟨-ENOENT, none, db, .rolledBack, true⟩ := by
      unfold pgfuse_create
      rw [hro, if_neg (by simp), hfull]
      simp [hpar]
    rw [this]
    exact ⟨rfl, rfl⟩
  · intro pid pino hp hpar hnd
    have hfull : psql_read_meta_from_path db p = .error (-ENOTDIR) := by
      have := resolve_append db (dirname p) (basename p)
      rw [dirname_append_basename p hp] at this
      rw [this, hpar]
      simp [hnd]
    have : pgfuse_create cfg db p mode = ⟨-ENOTDIR, none, db, .rolledBack, true⟩ := by
      unfold pgfuse_create
      rw [hro, if_neg (by simp), hfull]
      simp [show (-ENOTDIR : Int) ≠ -ENOENT from by decide]
    rw [this]
    exact ⟨rfl, rfl⟩
  · intro id ino hfull hdir
    have : pgfuse_create cfg db p mode = ⟨-EISDIR, none, db, .rolledBack, true⟩ := by
      unfold pgfuse_create
      rw [hro, if_neg (by simp), hfull]
      simp [hdir]
    rw [this]
    exact ⟨rfl, rfl⟩
  · intro id ino hfull hdir
    have : pgfuse_create cfg db p mode = ⟨-EEXIST, none, db, .rolledBack, true⟩ := by
      unfold pgfuse_create
      rw [hro, if_neg (by simp), hfull]
      simp [hdir]
    rw [this]
    exact ⟨rfl, rfl⟩
  · intro pid pino hp hpar hdir hfresh
    have hfull : psql_read_meta_from_path db p = .error (-ENOENT) := by
      have := resolve_append db (dirname p) (basename p)
      rw [dirname_append_basename p hp] at this
      rw [this, hpar]
      simp [hdir, hfresh]
    have hps : (db.find pid).isSome :=
      resolve_ok_find_isSome db (dirname p) pid pino hpar
    have hcf := psql_create_file_fresh db pid (basename p)
      { size := 0, mode := mode, uid := cfg.uid, gid := cfg.gid,
        ctime := cfg.tnow, mtime := cfg.tnow, atime := cfg.tnow, parent_id := 0 }
      hfresh hps
    have hres1 := resolve_createdDb db p pid pino
      { size := 0, mode := mode, uid := cfg.uid, gid := cfg.gid,
        ctime := cfg.tnow, mtime := cfg.tnow, atime := cfg.tnow, parent_id := 0 }
      hp hpar hdir hfresh
    have hrun : pgfuse_create cfg db p mode =
        ⟨0, some db.freshId,
          createdDb db pid (basename p)
            { size := 0, mode := mode, uid := cfg.uid, gid := cfg.gid,
              ctime := cfg.tnow, mtime := cfg.tnow, atime := cfg.tnow, parent_id := 0 },
          .committed, true⟩ := by
      unfold pgfuse_create
      rw [hro, if_neg (by simp), hfull]
      simp [hpar, hdir, hcf, hres1]
    rw [hrun]
    refine ⟨rfl, rfl, ?_⟩
    rw [createdDb_find_fresh]
    rfl

/-- C5 witness: creating "/b" in the fixture database succeeds with the
fresh id 4 and stores uid 1000, gid 100 and timestamp 9 from the calling
context; creating "/zz/b" fails with -ENOENT, "/a/b" with -ENOTDIR, "/d"
with -EISDIR and "/a" with -EEXIST. -/
theorem C5_create_semantics_witness :
    (pgfuse_create cfgRW db0 ["b"] 420).ret = 0 ∧
    (pgfuse_create cfgRW db0 ["b"] 420).val = some 4 ∧
    (pgfuse_create cfgRW db0 ["b"] 420).db.find 4
      = some ⟨"b", ⟨0, 420, 1000, 100, ⟨9, 0⟩, ⟨9, 0⟩, ⟨9, 0⟩, 1⟩, []⟩ ∧
    (pgfuse_create cfgRW db0 ["zz", "b"] 420).ret = -ENOENT ∧
    (pgfuse_create cfgRW db0 ["a", "b"] 420).ret = -ENOTDIR ∧
    (pgfuse_create cfgRW db0 ["d"] 420).ret = -EISDIR ∧
    (pgfuse_create cfgRW db0 ["a"] 420).ret = -EEXIST := by
  have h := C5_create_semantics cfgRW db0 ["b"] 420 rfl
  have hok := h.2.2.2.2 1 rootIno (by decide) rfl (by decide) rfl
  have h2 := C5_create_semantics cfgRW db0 ["zz", "b"] 420 rfl
  have h3 := C5_create_semantics cfgRW db0 ["a", "b"] 420 rfl
  have h4 := C5_create_semantics cfgRW db0 ["d"] 420 rfl
  have h5 := C5_create_semantics cfgRW db0 ["a"] 420 rfl
  exact ⟨hok.1, hok.2.1, hok.2.2,
         (h2.1 rfl rfl).1,
         (h3.2.1 2 fileIno (by decide) rfl (by decide)).1,
         (h4.2.2.1 3 dirIno rfl (by decide)).1,
         (h5.2.2.2.1 2 fileIno rfl (by decide)).1⟩

/-- C10: for every target byte string `t` and fresh link path under an
existing directory, `symlink(t, p)` (src/pgfuse.c:1182-1283) succeeds,
storing an inode with mode `0777 | S_IFLNK`, size `len(t)`, and `t` as its
content from offset 0; a subsequent `readlink(p, buflen)` with
`buflen ≥ len(t) + 1` (src/pgfuse.c:1383-1425) returns 0 with the buffer
holding exactly the bytes of `t` followed by the NUL terminator. -/
theorem C10_symlink_readlink_roundtrip (cfg : FuseCtx) (db : Db) (t : List Nat)
    (p : List String) (pid : Nat) (pino : Inode) (buflen : Nat)
    (hro : cfg.read_only = false) (hp : p ≠ [])
    (hpar : psql_read_meta_from_path db (dirname p) = .ok (pid, pino))
    (hdir : S_ISDIR pino.meta.mode = true)
    (hfresh : db.child pid (basename p) = none)
    (hbl : t.length + 1 ≤ buflen) :
    (pgfuse_symlink cfg db t p).ret = 0 ∧
    (pgfuse_symlink cfg db t p).db.find db.freshId
      = some ⟨basename p,
              ⟨t.length, 0o777 ||| S_IFLNK, cfg.uid, cfg.gid,
               cfg.tnow, cfg.tnow, cfg.tnow, pid⟩, t⟩ ∧
    (pgfuse_readlink cfg (pgfuse_symlink cfg db t p).db p buflen).ret = 0 ∧
    (pgfuse_readlink cfg (pgfuse_symlink cfg db t p).db p buflen).val = t ++ [0] := by
  have hps : (db.find pid).isSome :=
    resolve_ok_find_isSome db (dirname p) pid pino hpar
  have hcf := psql_create_file_fresh db pid (basename p)
    { size := t.length, mode := 0o777 ||| S_IFLNK, uid := cfg.uid, gid := cfg.gid,
      ctime := cfg.tnow, mtime := cfg.tnow, atime := cfg.tnow, parent_id := 0 }
    hfresh hps
  have hres1 := resolve_createdDb db p pid pino
    { size := t.length, mode := 0o777 ||| S_IFLNK, uid := cfg.uid, gid := cfg.gid,
      ctime := cfg.tnow, mtime := cfg.tnow, atime := cfg.tnow, parent_id := 0 }
    hp hpar hdir hfresh
  have hfind1 := createdDb_find_fresh db pid (basename p)
    { size := t.length, mode := 0o777 ||| S_IFLNK, uid := cfg.uid, gid := cfg.gid,
      ctime := cfg.tnow, mtime := cfg.tnow, atime := cfg.tnow, parent_id := 0 }
  have hwbuf : psql_write_buf
      (createdDb db pid (basename p)
        { size := t.length, mode := 0o777 ||| S_IFLNK, uid := cfg.uid, gid := cfg.gid,
          ctime := cfg.tnow, mtime := cfg.tnow, atime := cfg.tnow, parent_id := 0 })
      db.freshId t 0
      = .ok (t.length,
          (createdDb db pid (basename p)
            { size := t.length, mode := 0o777 ||| S_IFLNK, uid := cfg.uid, gid := cfg.gid,
              ctime := cfg.tnow, mtime := cfg.tnow, atime := cfg.tnow, parent_id := 0 }).updateInode
            db.freshId (fun i => { i with content := t })) := by
    unfold psql_write_buf
    rw [hfind1]
    have hov : overlay (createdIno pid (basename p)
        { size := t.length, mode := 0o777 ||| S_IFLNK, uid := cfg.uid, gid := cfg.gid,
          ctime := cfg.tnow, mtime := cfg.tnow, atime := cfg.tnow, parent_id := 0 }).content 0 t
        = t := overlay_nil t
    simp [hov]
  have hrun : pgfuse_symlink cfg db t p =
      ⟨0, (),
        (createdDb db pid (basename p)
          { size := t.length, mode := 0o777 ||| S_IFLNK, uid := cfg.uid, gid := cfg.gid,
            ctime := cfg.tnow, mtime := cfg.tnow, atime := cfg.tnow, parent_id := 0 }).updateInode
          db.freshId (fun i => { i with content := t }),
        .committed, true⟩ := by
    unfold pgfuse_symlink
    rw [hpar]
    simp [hdir, hro, hcf, hres1, hwbuf]
  have hfind2 : (pgfuse_symlink cfg db t p).db.find db.freshId
      = some ⟨basename p,
              ⟨t.length, 0o777 ||| S_IFLNK, cfg.uid, cfg.gid,
               cfg.tnow, cfg.tnow, cfg.tnow, pid⟩, t⟩ := by
    rw [hrun]
    show ((createdDb db pid (basename p) _).updateInode db.freshId _).find db.freshId = _
    rw [find_updateInode, if_pos rfl, hfind1]
    rfl
  have hres2 : psql_read_meta_from_path (pgfuse_symlink cfg db t p).db p
      = .ok (db.freshId,
             ⟨basename p,
              ⟨t.length, 0o777 ||| S_IFLNK, cfg.uid, cfg.gid,
               cfg.tnow, cfg.tnow, cfg.tnow, pid⟩, t⟩) := by
    rw [hrun]
    have := resolve_updateInode
      (createdDb db pid (basename p)
        { size := t.length, mode := 0o777 ||| S_IFLNK, uid := cfg.uid, gid := cfg.gid,
          ctime := cfg.tnow, mtime := cfg.tnow, atime := cfg.tnow, parent_id := 0 })
      db.freshId (fun i => { i with content := t })
      (fun _ => rfl) (fun _ => rfl) (fun _ => rfl) p db.freshId
      (createdIno pid (basename p)
        { size := t.length, mode := 0o777 ||| S_IFLNK, uid := cfg.uid, gid := cfg.gid,
          ctime := cfg.tnow, mtime := cfg.tnow, atime := cfg.tnow, parent_id := 0 })
      hres1
    simpa using this
  have hlnk : S_ISLNK (0o777 ||| S_IFLNK) = true := by decide
  have hreadbuf : psql_read_buf (pgfuse_symlink cfg db t p).db db.freshId 0 t.length
      = .ok (t.length, (List.range t.length).map (fun i => t.getD i 0)) := by
    unfold psql_read_buf
    rw [hfind2]
    simp
  have hrl : pgfuse_readlink cfg (pgfuse_symlink cfg db t p).db p buflen =
      ⟨0, (List.range t.length).map (fun i => t.getD i 0) ++ [0],
        (pgfuse_symlink cfg db t p).db, .committed, true⟩ := by
    unfold pgfuse_readlink
    rw [hres2]
    simp [hlnk, hreadbuf, show ¬ buflen < t.length + 1 from by omega]
  refine ⟨?_, hfind2, ?_, ?_⟩
  · rw [hrun]
  · rw [hrl]
  · rw [hrl]
    show (List.range t.length).map (fun i => t.getD i 0) ++ [0] = t ++ [0]
    rw [range_map_getD]

/-- C10 witness: creating the symlink "/s" with target bytes "hi" in the
fixture database and reading it back with a 3-byte buffer yields exactly
"hi" plus the NUL terminator. -/
theorem C10_symlink_readlink_roundtrip_witness :
    (pgfuse_symlink cfgRW db0 [104, 105] ["s"]).ret = 0 ∧
    (pgfuse_readlink cfgRW (pgfuse_symlink cfgRW db0 [104, 105] ["s"]).db ["s"] 3).ret = 0 ∧
    (pgfuse_readlink cfgRW (pgfuse_symlink cfgRW db0 [104, 105] ["s"]).db ["s"] 3).val
      = [104, 105, 0] := by
  have h := C10_symlink_readlink_roundtrip cfgRW db0 [104, 105] ["s"] 1 rootIno 3
    rfl (by decide) rfl (by decide) rfl (by decide)
  exact ⟨h.1, h.2.2.1, h.2.2.2⟩

end PgFuse
